import Mathlib

/-!
Verification of the kurwactionary glossary UI against its design spec.

The source is a small browser application that renders a flat list of
word records (word, definition, tags, parent pointer) as a hierarchical
glossary: a depth-capped default tree, a search view, a definition panel
with parent navigation, and a hover prefetch cache.

Two source variants are embedded here:
- namespace `Glossary` embeds the variant with the 3-level default tree,
  grouped search results, `selectWord` and the search-input listener;
- namespace `Script` embeds the `script.js` variant with the prefetch
  cache (`prefetchedDefinition`), `generateDefinitionHTML`,
  `renderDefinitionPanel` and the mouse handlers.

Modeling conventions (shallow embedding):
- JS strings are Lean `String` (a list of `Char`); `trim`, `toLowerCase`,
  `includes` and `startsWith` are re-implemented over `String.data` as
  `jsTrim`, `jsToLower`, `jsIncludes`, `jsStartsWith`.  JS whitespace is
  modelled by `Char.isWhitespace`, which agrees with it on ASCII input.
- `localeCompare` is modelled by code-point lexicographic order on the
  character lists (`lexLeb`/`localeLe`), with which it agrees on the ASCII
  inputs considered here.
- JS `null`/`undefined` values are `Option.none`; an absent `parent`
  string is the empty string (both are falsy in the source guards).
- DOM output is modelled as pure data: rendered tree nodes (`RNode`)
  carry their label, active/hidden class flags and their click payload;
  the nesting level of the containing `.level` div is recorded as a `Nat`.
-/

structure WordEntry where
  word : String
  definition : String
  tags : List String
  parent : String
deriving DecidableEq

/-- Model of `Array.prototype.includes` failure-free substring test used as
`s.includes(sub)` on lists of characters: true iff `sub` occurs contiguously
inside `l`. -/
def occursIn : List Char → List Char → Bool
  | l, sub =>
    if sub.isPrefixOf l then true
    else
      match l with
      | [] => false
      | _ :: t => occursIn t sub

/-- Model of `String.prototype.trim` (drops surrounding whitespace). -/
def jsTrim (s : String) : String :=
  ⟨((s.data.dropWhile Char.isWhitespace).reverse.dropWhile Char.isWhitespace).reverse⟩

/-- Model of `String.prototype.toLowerCase` (character-wise lowering). -/
def jsToLower (s : String) : String :=
  ⟨s.data.map Char.toLower⟩

/-- Model of `String.prototype.includes`. -/
def jsIncludes (s sub : String) : Bool :=
  occursIn s.data sub.data

/-- Model of `String.prototype.startsWith`. -/
def jsStartsWith (s pre : String) : Bool :=
  pre.data.isPrefixOf s.data

/-- Lexicographic order on character lists by code point; `lexLeb a b` models
`a.localeCompare(b) <= 0`, with which it agrees on the ASCII inputs
considered here. -/
def lexLeb : List Char → List Char → Bool
  | [], _ => true
  | _ :: _, [] => false
  | a :: as, b :: bs =>
    if a < b then true
    else if b < a then false
    else lexLeb as bs

/-- Model of a non-positive `String.prototype.localeCompare` result. -/
def localeLe (a b : String) : Bool :=
  lexLeb a.data b.data

lemma lexLeb_cons_iff (x y : Char) (xs ys : List Char) :
    lexLeb (x :: xs) (y :: ys) = true ↔ (x < y ∨ (x = y ∧ lexLeb xs ys = true)) := by
  by_cases hxy : x < y
  · simp [lexLeb, hxy]
  · by_cases hyx : y < x
    · have hne : x ≠ y := fun h => absurd (h ▸ hyx) (lt_irrefl x)
      simp [lexLeb, hxy, hyx, hne]
    · have heq : x = y := le_antisymm (not_lt.mp hyx) (not_lt.mp hxy)
      simp [lexLeb, hxy, hyx, heq]

lemma lexLeb_total (a b : List Char) : lexLeb a b = true ∨ lexLeb b a = true := by
  induction a generalizing b with
  | nil => exact Or.inl rfl
  | cons x xs ih =>
    cases b with
    | nil => exact Or.inr rfl
    | cons y ys =>
      rcases lt_trichotomy x y with h | h | h
      · exact Or.inl ((lexLeb_cons_iff x y xs ys).mpr (Or.inl h))
      · rcases ih ys with h2 | h2
        · exact Or.inl ((lexLeb_cons_iff x y xs ys).mpr (Or.inr ⟨h, h2⟩))
        · exact Or.inr ((lexLeb_cons_iff y x ys xs).mpr (Or.inr ⟨h.symm, h2⟩))
      · exact Or.inr ((lexLeb_cons_iff y x ys xs).mpr (Or.inl h))

lemma lexLeb_trans (a b c : List Char) (h1 : lexLeb a b = true)
    (h2 : lexLeb b c = true) : lexLeb a c = true := by
  induction a generalizing b c with
  | nil => rfl
  | cons x xs ih =>
    cases b with
    | nil => exact absurd h1 (by simp [lexLeb])
    | cons y ys =>
      cases c with
      | nil => exact absurd h2 (by simp [lexLeb])
      | cons z zs =>
        rcases (lexLeb_cons_iff x y xs ys).mp h1 with hxy | ⟨rfl, hxs⟩
        · rcases (lexLeb_cons_iff y z ys zs).mp h2 with hyz | ⟨rfl, _⟩
          · exact (lexLeb_cons_iff x z xs zs).mpr (Or.inl (lt_trans hxy hyz))
          · exact (lexLeb_cons_iff x y xs zs).mpr (Or.inl hxy)
        · rcases (lexLeb_cons_iff x z ys zs).mp h2 with hyz | ⟨rfl, hys⟩
          · exact (lexLeb_cons_iff x z xs zs).mpr (Or.inl hyz)
          · exact (lexLeb_cons_iff x x xs zs).mpr (Or.inr ⟨rfl, ih ys zs hxs hys⟩)

lemma localeLe_total (a b : String) : localeLe a b = true ∨ localeLe b a = true :=
  lexLeb_total a.data b.data

lemma localeLe_trans (a b c : String) (h1 : localeLe a b = true)
    (h2 : localeLe b c = true) : localeLe a c = true :=
  lexLeb_trans a.data b.data c.data h1 h2

/-- A rendered tree node (one `.word-node` div): its text label, whether the
`active` and `hidden` classes are present, and the word its click listener
selects (`none` for a node with no listener). -/
structure RNode where
  label : String
  active : Bool
  hidden : Bool
  onClick : Option String
deriving DecidableEq

/-- The tree container content: either a single informational message div or
a flat document-order list of rendered nodes, each tagged with the nesting
level of the `.level` div containing it (0 = directly in the container). -/
inductive TreeView where
  | message (text : String)
  | nodes (ns : List (Nat × RNode))
deriving DecidableEq

namespace Glossary

/-- Source: `getChildren(parent)` — entries whose `parent` field equals the
key, strict string equality, in source order. -/
def getChildren (words : List WordEntry) (parent : String) : List WordEntry :=
  words.filter (fun w => w.parent == parent)

/-- Source: `findWord(word)` — first entry whose word matches
case-insensitively. -/
def findWord (words : List WordEntry) (word : String) : Option WordEntry :=
  words.find? (fun w => jsToLower w.word == jsToLower word)

/-- Source: `createWordElement(wordData, active)` — label and dataset come
from `wordData.word`; the `hidden` class is added when a search term is set
and the lowercased label does not start with it; a click listener selecting
the label is always attached. -/
def createWordElement (searchTerm : String) (word : String) (active : Bool) : RNode :=
  { label := word
    active := active
    hidden := (searchTerm != "") && !(jsStartsWith (jsToLower word) searchTerm)
    onClick := some word }

/-- Source: the synthetic truncation node built inline in
`renderDefaultTree`: label `+N more…`, no click listener. -/
def moreMarker (n : Nat) : RNode :=
  { label := "+" ++ toString n ++ " more…"
    active := false
    hidden := false
    onClick := none }

/-- Source: the innermost loop of `renderDefaultTree`: for a node `g` whose
children list `gg` is non-empty, a sub `.level` div holding the first 3
children and, when more exist, the `+N more…` marker. -/
def renderSub (words : List WordEntry) (searchTerm : String)
    (currentWord : Option String) (level : Nat) (g : WordEntry) : List (Nat × RNode) :=
  let gg := getChildren words g.word
  if gg.length ≠ 0 then
    ((gg.take 3).map
      (fun c => (level + 2, createWordElement searchTerm c.word (currentWord == some c.word))))
    ++ (if gg.length > 3 then [(level + 2, moreMarker (gg.length - 3))] else [])
  else []

/-- Source: the `.level` div built for one kid in `renderDefaultTree`:
its children `grand` (when non-empty), followed by the sub divs of each
grand node, guarded by the depth checks `level < 2` and `level < 1`. -/
def renderGrandBlock (words : List WordEntry) (searchTerm : String)
    (currentWord : Option String) (level : Nat) (kid : WordEntry) : List (Nat × RNode) :=
  if level < 2 then
    let grand := getChildren words kid.word
    if grand.length ≠ 0 then
      (grand.map
        (fun g => (level + 1, createWordElement searchTerm g.word (currentWord == some g.word))))
      ++ (if level < 1 then grand.flatMap (renderSub words searchTerm currentWord level) else [])
    else []
  else []

/-- Source: `renderDefaultTree(container, parent, level)` — the no-data
message when the top-level children list is empty, otherwise each kid
followed by its depth-guarded descendants. -/
def renderDefaultTree (words : List WordEntry) (searchTerm : String)
    (currentWord : Option String) (parent : String) (level : Nat) : TreeView :=
  let kids := getChildren words parent
  if kids.length = 0 ∧ level = 0 then .message "No data to display"
  else .nodes (kids.flatMap (fun kid =>
    (level, createWordElement searchTerm kid.word (currentWord == some kid.word)) ::
      renderGrandBlock words searchTerm currentWord level kid))

/-- Whether an entry word starts (case-insensitively) with the search term,
as tested in the sort comparator of `renderSearchResults`. -/
def startsMatch (term : String) (w : WordEntry) : Bool :=
  jsStartsWith (jsToLower w.word) term

/-- The order induced by the source comparator
`(a,b) => aStart && !bStart ? -1 : !aStart && bStart ? 1 :
a.word.localeCompare(b.word)`: `searchLe term a b` holds iff the comparator
returns a non-positive value on `(a, b)`. -/
def searchLe (term : String) (a b : WordEntry) : Prop :=
  (startsMatch term a ∧ ¬ startsMatch term b) ∨
    ((startsMatch term a ↔ startsMatch term b) ∧ localeLe a.word b.word)

instance (term : String) : DecidableRel (searchLe term) := fun a b => by
  unfold searchLe
  infer_instance

instance (term : String) : IsTotal WordEntry (searchLe term) where
  total a b := by
    by_cases ha : startsMatch term a = true <;> by_cases hb : startsMatch term b = true
    · rcases localeLe_total a.word b.word with h | h
      · exact Or.inl (Or.inr ⟨by simp [ha, hb], h⟩)
      · exact Or.inr (Or.inr ⟨by simp [ha, hb], h⟩)
    · exact Or.inl (Or.inl ⟨ha, fun hb2 => hb hb2⟩)
    · exact Or.inr (Or.inl ⟨hb, fun ha2 => ha ha2⟩)
    · rcases localeLe_total a.word b.word with h | h
      · exact Or.inl (Or.inr ⟨by simp [ha, hb], h⟩)
      · exact Or.inr (Or.inr ⟨by simp [ha, hb], h⟩)

instance (term : String) : IsTrans WordEntry (searchLe term) where
  trans a b c hab hbc := by
    rcases hab with ⟨ha, hnb⟩ | ⟨hiff, hab⟩
    · rcases hbc with ⟨hb, _⟩ | ⟨hiff2, _⟩
      · exact absurd hb hnb
      · exact Or.inl ⟨ha, fun hc => hnb (hiff2.mpr hc)⟩
    · rcases hbc with ⟨hb, hnc⟩ | ⟨hiff2, hbc⟩
      · exact Or.inl ⟨hiff.mpr hb, hnc⟩
      · exact Or.inr ⟨hiff.trans hiff2, localeLe_trans a.word b.word c.word hab hbc⟩

/-- Source: the filter + sort of `renderSearchResults` — candidates are the
entries whose lowercased word contains the term, ordered by the comparator
(prefix matches first, then locale order). -/
def searchMatches (words : List WordEntry) (term : String) : List WordEntry :=
  List.insertionSort (searchLe term)
    (words.filter (fun w => jsIncludes (jsToLower w.word) term))

/-- Source: the key order of the plain-object `byParent` accumulator —
first-occurrence order of the parent strings of the matches. -/
def parentKeys (ms : List WordEntry) : List String :=
  ms.foldl (fun acc w => if w.parent ∈ acc then acc else acc ++ [w.parent]) []

/-- Source: `renderSearchResults(container, focusWord)` — the no-results
message, or one group per parent key: a header element for
`findWord(parent) || {word: parent}` followed by a `.level` div with the
matching children of that parent. -/
def renderSearchResults (words : List WordEntry) (searchTerm : String)
    (focus : Option String) : TreeView :=
  let ms := searchMatches words searchTerm
  if ms.length = 0 then .message "No results"
  else .nodes ((parentKeys ms).flatMap (fun p =>
    let headerLabel := match findWord words p with
      | some e => e.word
      | none => p
    (0, createWordElement searchTerm headerLabel (focus == some p)) ::
      ((ms.filter (fun w => w.parent == p)).map
        (fun c => (1, createWordElement searchTerm c.word (focus == some c.word))))))

/-- Source: `renderTree(focusWord)` — search mode whenever the term is
non-empty, default tree (rooted at `root`, level 0) otherwise. -/
def renderTree (words : List WordEntry) (searchTerm : String)
    (currentWord : Option String) (focus : Option String) : TreeView :=
  if searchTerm ≠ "" then renderSearchResults words searchTerm focus
  else renderDefaultTree words searchTerm currentWord "root" 0

/-- The structured content of a rendered definition panel: heading, body,
the tag strip (absent entirely when omitted) and the parent link target. -/
structure DefView where
  heading : String
  body : String
  tagStrip : Option (List String)
  parentLink : Option String
deriving DecidableEq

/-- Source: the definition-panel template in `selectWord` (the same content
is produced by `generateDefinitionHTML` and by the structured
`renderDefinitionPanel` variant): heading = word, body = definition, the
tag strip only when `tags` is non-empty, the parent line only when `parent`
is truthy and not `root`. -/
def renderDefinition (w : WordEntry) : DefView :=
  { heading := w.word
    body := w.definition
    tagStrip := if w.tags.length ≠ 0 then some w.tags else none
    parentLink := if w.parent ≠ "" ∧ w.parent ≠ "root" then some w.parent else none }

/-- The definition panel region: empty, the select-a-word prompt, or a
rendered definition. -/
inductive Panel where
  | blank
  | prompt
  | defView (d : DefView)
deriving DecidableEq

/-- The mutable page state of the glossary variant: record set, the
`currentWord` string (null = `none`), the stored search term, and the two
rendered regions. -/
structure AppState where
  words : List WordEntry
  currentWord : Option String
  searchTerm : String
  panel : Panel
  tree : TreeView
deriving DecidableEq

/-- Source: `selectWord(word)` — sets `currentWord = word` first, then looks
the word up; on a miss it returns (leaving both rendered regions as they
were); on a hit it fills the definition panel and re-renders the tree with
the selected word as focus. -/
def selectWord (st : AppState) (word : String) : AppState :=
  let st := { st with currentWord := some word }
  match findWord st.words word with
  | none => st
  | some w =>
    { st with
      panel := .defView (renderDefinition w)
      tree := renderTree st.words st.searchTerm (some word) (some word) }

/-- Dispatch a click on a rendered node: nodes carrying a listener select
their word, nodes without one (the `+N more…` marker) do nothing. -/
def clickNode (st : AppState) (r : RNode) : AppState :=
  match r.onClick with
  | some w => selectWord st w
  | none => st

/-- Source: the `.parent-link` click listener attached in `selectWord`:
clicking the link in the current panel selects `dataset.parent`; with no
link in the panel nothing can be clicked. -/
def selectParent (st : AppState) : AppState :=
  match st.panel with
  | .defView d =>
    match d.parentLink with
    | some p => selectWord st p
    | none => st
  | _ => st

/-- Source: the `searchInput` listener — stores the trimmed lowercased
input, clears `currentWord` when the term is empty, re-renders the tree
with `currentWord` as focus, and sets the panel to empty or to the prompt
according to the truthiness of `currentWord`. -/
def handleSearchInput (st : AppState) (raw : String) : AppState :=
  let term := jsToLower (jsTrim raw)
  let cw := if term = "" then none else st.currentWord
  { st with
    searchTerm := term
    currentWord := cw
    tree := renderTree st.words term cw cw
    panel :=
      match cw with
      | some w => if w = "" then .prompt else .blank
      | none => .prompt }

end Glossary

namespace Script

/-- Source: `findWord(word)` in `script.js` — first case-insensitive match,
returning the entry object itself. -/
def findWord (words : List WordEntry) (word : String) : Option WordEntry :=
  words.find? (fun w => jsToLower w.word == jsToLower word)

/-- Source: `generateDefinitionHTML(wordData)` — the empty string for a
falsy argument, otherwise the heading/body template followed by the
optional tags container and the optional parent line. -/
def generateDefinitionHTML : Option WordEntry → String
  | none => ""
  | some w =>
    "<h2>" ++ w.word ++ "</h2><p class=\"definition-text\">" ++ w.definition ++ "</p>"
    ++ (if w.tags.length ≠ 0 then
          "<div class=\"tags-container\">"
          ++ String.join (w.tags.map (fun t => "<span class=\"tag\">" ++ t ++ "</span>"))
          ++ "</div>"
        else "")
    ++ (if w.parent ≠ "" ∧ w.parent ≠ "root" then
          "<p>Parent: <a href=\"#\" class=\"parent-link\" data-parent=\""
          ++ w.parent ++ "\">" ++ w.parent ++ "</a></p>"
        else "")

/-- The definition panel region of `script.js`: the structured
select-a-word placeholder, or an HTML string set through `innerHTML`. -/
inductive SPanel where
  | placeholder
  | html (s : String)
deriving DecidableEq

/-- The mutable state of `script.js`: record set, selected entry object,
search term, the one-shot prefetch cache, and the panel region. -/
structure SState where
  words : List WordEntry
  currentWord : Option WordEntry
  searchTerm : String
  prefetched : Option String
  panel : SPanel
deriving DecidableEq

/-- Source: the non-prefetch tail of `renderDefinitionPanel` — the
placeholder when no word is selected, otherwise `generateDefinitionHTML`
of the current word. -/
def directPanel (st : SState) : SState :=
  match st.currentWord with
  | none => { st with panel := .placeholder }
  | some w => { st with panel := .html (generateDefinitionHTML (some w)) }

/-- Source: `renderDefinitionPanel()` — a truthy (non-null, non-empty)
prefetched string is displayed and the cache nulled; otherwise the panel is
recomputed from `currentWord` (a falsy empty-string cache entry is skipped
and left in place, as in the source). -/
def renderDefinitionPanel (st : SState) : SState :=
  match st.prefetched with
  | some s =>
    if s = "" then directPanel st
    else { st with panel := .html s, prefetched := none }
  | none => directPanel st

/-- Source: the word-node branch of `handleTreeClick` — `currentWord`
becomes the looked-up entry and the definition panel is re-rendered. -/
def handleClickWord (st : SState) (word : String) : SState :=
  renderDefinitionPanel { st with currentWord := findWord st.words word }

/-- Source: `handleTreeMouseover` on a word node — the cache receives the
generated HTML of the hovered word (the empty string when the lookup
fails). -/
def handleTreeMouseover (st : SState) (word : String) : SState :=
  { st with prefetched := some (generateDefinitionHTML (findWord st.words word)) }

/-- Source: `handleTreeMouseout` on a word node — the cache is nulled. -/
def handleTreeMouseout (st : SState) : SState :=
  { st with prefetched := none }

/-- The content the direct (non-prefetch) path computes for a clicked word:
the placeholder on a lookup miss, the generated HTML otherwise.  This is
the reference side of the prefetch-equivalence claim. -/
def directContent (words : List WordEntry) (word : String) : SPanel :=
  match findWord words word with
  | none => .placeholder
  | some e => .html (generateDefinitionHTML (some e))

end Script

/-! ### Concrete record sets used by witnesses and counterexamples -/

def exBolt : WordEntry := ⟨"Bolt", "A fastener", ["hardware"], "root"⟩

def exHexBolt : WordEntry := ⟨"Hex Bolt", "Six-sided head", [], "Bolt"⟩

def exIndicator : WordEntry := ⟨"indicator", "points at something", [], "root"⟩

def exCatalog : WordEntry := ⟨"catalog", "a list of items", [], "root"⟩

def exOrphan : WordEntry := ⟨"Orphan", "alone", [], "Nowhere"⟩

def exAnchor : WordEntry := ⟨"Anchor", "holds fast", [], "Ghost"⟩

def exA0 : WordEntry := ⟨"a0", "", [], "root"⟩

def exA1 : WordEntry := ⟨"a1", "", [], "a0"⟩

/-- A record set with a parent chain of length 4 (`root → a0 → a1 → b1 → c1`)
and a level-1 node (`a1`) with five children. -/
def deepWords : List WordEntry :=
  [exA0, exA1,
   ⟨"b1", "", [], "a1"⟩, ⟨"b2", "", [], "a1"⟩, ⟨"b3", "", [], "a1"⟩,
   ⟨"b4", "", [], "a1"⟩, ⟨"b5", "", [], "a1"⟩,
   ⟨"c1", "", [], "b1"⟩]

/-- A freshly loaded page state over the given record set: nothing selected,
empty search term, prompt panel, default tree rendered. -/
def exState (ws : List WordEntry) : Glossary.AppState :=
  { words := ws
    currentWord := none
    searchTerm := ""
    panel := .prompt
    tree := Glossary.renderTree ws "" none none }

/-! ### C1 -/

/-- C1, counterexample: the claim says selecting an unknown word leaves the
currently selected word unchanged, but `selectWord` assigns `currentWord`
before the lookup guard: with only `Bolt` loaded and `Bolt` selected,
selecting `Unknown` (which has no entry) changes `currentWord`. -/
theorem selectWord_unknown_changes_selection :
    Glossary.findWord [exBolt] "Unknown" = none ∧
    (Glossary.selectWord (Glossary.selectWord (exState [exBolt]) "Bolt")
        "Unknown").currentWord
      ≠ (Glossary.selectWord (exState [exBolt]) "Bolt").currentWord := by
  constructor
  · decide
  · decide

/-- C1, amended: selecting a word with no case-insensitive entry leaves the
rendered definition panel and the rendered tree unchanged (the existing
view is not cleared), but it is not a complete no-op: `currentWord` is
overwritten with the unknown word before the lookup guard returns. -/
theorem selectWord_unknown_preserves_view (st : Glossary.AppState) (w : String)
    (h : Glossary.findWord st.words w = none) :
    (Glossary.selectWord st w).panel = st.panel ∧
    (Glossary.selectWord st w).tree = st.tree ∧
    (Glossary.selectWord st w).currentWord = some w := by
  simp [Glossary.selectWord, h]

/-- C1 witness: the amended statement applied to the one-entry `Bolt` record
set and the unknown word `Unknown`. -/
theorem selectWord_unknown_preserves_view_witness :
    Glossary.findWord (exState [exBolt]).words "Unknown" = none ∧
    ((Glossary.selectWord (exState [exBolt]) "Unknown").panel = (exState [exBolt]).panel ∧
     (Glossary.selectWord (exState [exBolt]) "Unknown").tree = (exState [exBolt]).tree ∧
     (Glossary.selectWord (exState [exBolt]) "Unknown").currentWord = some "Unknown") :=
  ⟨by decide, selectWord_unknown_preserves_view (exState [exBolt]) "Unknown" (by decide)⟩

/-! ### C6 -/

/-- C6: for every entry, the rendered definition content has heading equal
to the entry word, body equal to its definition, the tag strip listing
exactly the tags in source order and omitted entirely when `tags` is empty,
and the parent link present with target `parent` exactly when `parent` is
neither absent (empty) nor the `root` sentinel. -/
theorem renderDefinition_content (w : WordEntry) :
    (Glossary.renderDefinition w).heading = w.word ∧
    (Glossary.renderDefinition w).body = w.definition ∧
    (w.tags = [] → (Glossary.renderDefinition w).tagStrip = none) ∧
    (w.tags ≠ [] → (Glossary.renderDefinition w).tagStrip = some w.tags) ∧
    ((Glossary.renderDefinition w).parentLink = none ↔
      (w.parent = "" ∨ w.parent = "root")) ∧
    (w.parent ≠ "" → w.parent ≠ "root" →
      (Glossary.renderDefinition w).parentLink = some w.parent) := by
  refine ⟨rfl, rfl, ?_, ?_, ?_, ?_⟩
  · intro h
    simp [Glossary.renderDefinition, h]
  · intro h
    simp [Glossary.renderDefinition, h]
  · unfold Glossary.renderDefinition
    split
    · simp
      tauto
    · simp
      tauto
  · intro h1 h2
    simp [Glossary.renderDefinition, h1, h2]

/-- C6 witness: the content properties applied to `Hex Bolt` (no tags,
parent `Bolt`) and to `Bolt` (one tag, parent equal to the root sentinel). -/
theorem renderDefinition_content_witness :
    (exHexBolt.tags = [] ∧ (Glossary.renderDefinition exHexBolt).tagStrip = none) ∧
    (exBolt.tags ≠ [] ∧ (Glossary.renderDefinition exBolt).tagStrip = some exBolt.tags) ∧
    ((Glossary.renderDefinition exBolt).parentLink = none ↔
      (exBolt.parent = "" ∨ exBolt.parent = "root")) ∧
    (exHexBolt.parent ≠ "" ∧ exHexBolt.parent ≠ "root" ∧
      (Glossary.renderDefinition exHexBolt).parentLink = some exHexBolt.parent) :=
  ⟨⟨rfl, (renderDefinition_content exHexBolt).2.2.1 rfl⟩,
   ⟨by decide, (renderDefinition_content exBolt).2.2.2.1 (by decide)⟩,
   (renderDefinition_content exBolt).2.2.2.2.1,
   ⟨by decide, by decide,
    (renderDefinition_content exHexBolt).2.2.2.2.2 (by decide) (by decide)⟩⟩

/-! ### C9 -/

/-- C9, counterexample: the claim requires three pairwise different messages
for the three empty outcomes, but an empty record set and a non-empty
record set whose root has no children both render the same
`No data to display` message. -/
theorem empty_states_share_message :
    Glossary.renderTree ([] : List WordEntry) "" none none
      = .message "No data to display" ∧
    Glossary.renderTree [exOrphan] "" none none
      = .message "No data to display" ∧
    ([] : List WordEntry) ≠ [exOrphan] ∧
    Glossary.getChildren [exOrphan] "root" = [] := by
  refine ⟨by decide, by decide, by decide, by decide⟩

/-- C9, amended: the code distinguishes only two empty outcomes: an empty
record set and an empty root-children list both render the
`No data to display` message, while zero search matches renders the
distinct `No results` message; none of the three is a blank view. -/
theorem empty_states_two_messages (words : List WordEntry) (term : String)
    (cw f : Option String) :
    (words = [] →
      Glossary.renderTree words "" cw f = .message "No data to display") ∧
    (Glossary.getChildren words "root" = [] →
      Glossary.renderTree words "" cw f = .message "No data to display") ∧
    (term ≠ "" → Glossary.searchMatches words term = [] →
      Glossary.renderTree words term cw f = .message "No results") ∧
    ("No results" : String) ≠ "No data to display" := by
  refine ⟨?_, ?_, ?_, by decide⟩
  · rintro rfl
    simp [Glossary.renderTree, Glossary.renderDefaultTree, Glossary.getChildren]
  · intro h
    simp [Glossary.renderTree, Glossary.renderDefaultTree, h]
  · intro ht hm
    simp [Glossary.renderTree, ht, Glossary.renderSearchResults, hm]

/-- C9 witness: the amended statement applied to a record set with no root
children (message `No data to display`) and to the search term `cat` with
no matches (message `No results`). -/
theorem empty_states_two_messages_witness :
    (Glossary.getChildren [exOrphan] "root" = [] ∧
     Glossary.renderTree [exOrphan] "" none none = .message "No data to display") ∧
    (("cat" : String) ≠ "" ∧ Glossary.searchMatches [exOrphan] "cat" = [] ∧
     Glossary.renderTree [exOrphan] "cat" none none = .message "No results") :=
  ⟨⟨by decide, (empty_states_two_messages [exOrphan] "cat" none none).2.1 (by decide)⟩,
   ⟨by decide, by decide,
    (empty_states_two_messages [exOrphan] "cat" none none).2.2.1 (by decide) (by decide)⟩⟩

/-! ### C10 -/

lemma jsTrim_eq_empty (s : String) (h : ∀ c ∈ s.data, c.isWhitespace) :
    jsTrim s = "" := by
  unfold jsTrim
  rw [List.dropWhile_eq_nil_iff.mpr h]
  rfl

/-- C10: the stored search term is the raw input trimmed then lowercased;
raw inputs with the same normalization produce identical resulting states;
a whitespace-only input behaves exactly like the empty input: term cleared,
selection cleared, and the tree rendered in default mode, not search mode. -/
theorem handleSearchInput_normalizes (st : Glossary.AppState) (raw raw2 : String) :
    (Glossary.handleSearchInput st raw).searchTerm = jsToLower (jsTrim raw) ∧
    (jsToLower (jsTrim raw) = jsToLower (jsTrim raw2) →
      Glossary.handleSearchInput st raw = Glossary.handleSearchInput st raw2) ∧
    ((∀ c ∈ raw.data, c.isWhitespace) →
      Glossary.handleSearchInput st raw = Glossary.handleSearchInput st "" ∧
      (Glossary.handleSearchInput st raw).searchTerm = "" ∧
      (Glossary.handleSearchInput st raw).currentWord = none ∧
      (Glossary.handleSearchInput st raw).tree =
        Glossary.renderDefaultTree st.words "" none "root" 0) := by
  refine ⟨rfl, ?_, ?_⟩
  · intro h
    simp only [Glossary.handleSearchInput, h]
  · intro h
    have hz : jsToLower (jsTrim raw) = "" := by
      rw [jsTrim_eq_empty raw h]
      rfl
    refine ⟨by simp only [Glossary.handleSearchInput, hz]; rfl, ?_, ?_, ?_⟩ <;>
      simp [Glossary.handleSearchInput, hz, Glossary.renderTree]

/-- C10 witness: the normalization statement applied to the raw inputs
`"  CAT "` and `"cat"` (same normalization, identical states) and to the
whitespace-only input `"   "` (treated exactly as the empty term). -/
theorem handleSearchInput_normalizes_witness :
    (jsToLower (jsTrim "  CAT ") = jsToLower (jsTrim "cat") ∧
     Glossary.handleSearchInput (exState [exBolt]) "  CAT "
       = Glossary.handleSearchInput (exState [exBolt]) "cat") ∧
    ((∀ c ∈ ("   " : String).data, c.isWhitespace) ∧
     (Glossary.handleSearchInput (exState [exBolt]) "   "
        = Glossary.handleSearchInput (exState [exBolt]) "" ∧
      (Glossary.handleSearchInput (exState [exBolt]) "   ").searchTerm = "" ∧
      (Glossary.handleSearchInput (exState [exBolt]) "   ").currentWord = none ∧
      (Glossary.handleSearchInput (exState [exBolt]) "   ").tree =
        Glossary.renderDefaultTree (exState [exBolt]).words "" none "root" 0)) :=
  ⟨⟨by decide,
    (handleSearchInput_normalizes (exState [exBolt]) "  CAT " "cat").2.1 (by decide)⟩,
   ⟨by decide,
    (handleSearchInput_normalizes (exState [exBolt]) "   " "").2.2 (by decide)⟩⟩

/-! ### C4 -/

/-- The ordering required of the search listing, as the spec words it:
a node can only precede another if no substring-only match comes before a
prefix match, and within one match class the earlier word is
locale-less-or-equal. -/
def specSearchOrder (term : String) (a b : WordEntry) : Prop :=
  (Glossary.startsMatch term b → Glossary.startsMatch term a) ∧
    ((Glossary.startsMatch term a ↔ Glossary.startsMatch term b) →
      localeLe a.word b.word)

/-- C4: the candidate list is exactly the entries whose lowercased word
contains the term (a permutation of that filter), every adjacent-or-later
pair respects prefix-matches-first with locale-order tie-break, and on the
concrete record set `indicator`/`catalog` with term `cat` the prefix match
`catalog` sorts first. -/
theorem searchMatches_filter_sorted (words : List WordEntry) (term : String) :
    (Glossary.searchMatches words term).Perm
      (words.filter (fun w => jsIncludes (jsToLower w.word) term)) ∧
    (Glossary.searchMatches words term).Pairwise (specSearchOrder term) ∧
    Glossary.searchMatches [exIndicator, exCatalog] "cat"
      = [exCatalog, exIndicator] := by
  refine ⟨List.perm_insertionSort _ _, ?_, by decide⟩
  have h := List.sorted_insertionSort (Glossary.searchLe term)
      (words.filter (fun w => jsIncludes (jsToLower w.word) term))
  unfold Glossary.searchMatches
  refine h.imp ?_
  intro a b hab
  rcases hab with ⟨ha, hnb⟩ | ⟨hiff, hle⟩
  · exact ⟨fun _ => ha, fun hiff2 => absurd (hiff2.mp ha) hnb⟩
  · exact ⟨fun hb => hiff.mpr hb, fun _ => hle⟩

/-! ### C5 -/

/-- C5, counterexample: `indicator` contains the term `cat` (it is a match
and is rendered as a result), yet its rendered node carries the `hidden`
class, because the code hides by `startsWith`, not by match status. -/
theorem search_match_marked_hidden :
    jsIncludes (jsToLower "indicator") "cat" = true ∧
    Glossary.renderSearchResults [exIndicator] "cat" none =
      .nodes [(0, ⟨"root", false, true, some "root"⟩),
              (1, ⟨"indicator", false, true, some "indicator"⟩)] ∧
    RNode.hidden ⟨"indicator", false, true, some "indicator"⟩ = true := by
  refine ⟨by decide, by decide, rfl⟩

lemma createWordElement_hidden_of_ne (term w : String) (a : Bool) (h : term ≠ "") :
    (Glossary.createWordElement term w a).hidden
      = !(jsStartsWith (jsToLower w) term) := by
  have ht : (term != "") = true := bne_iff_ne.mpr h
  simp [Glossary.createWordElement, ht]

lemma mem_foldl_parentKeys_of_mem_acc (ms : List WordEntry) (acc : List String)
    (x : String) (hx : x ∈ acc) :
    x ∈ ms.foldl (fun acc w => if w.parent ∈ acc then acc else acc ++ [w.parent]) acc := by
  induction ms generalizing acc with
  | nil => exact hx
  | cons hd t ih =>
    rw [List.foldl_cons]
    apply ih
    by_cases hmem : hd.parent ∈ acc
    · rw [if_pos hmem]
      exact hx
    · rw [if_neg hmem]
      exact List.mem_append_left _ hx

lemma parent_mem_parentKeys_aux (ms : List WordEntry) (w : WordEntry)
    (acc : List String) (hw : w ∈ ms) :
    w.parent ∈ ms.foldl (fun acc w => if w.parent ∈ acc then acc else acc ++ [w.parent]) acc := by
  induction ms generalizing acc with
  | nil => cases hw
  | cons hd t ih =>
    rw [List.foldl_cons]
    rcases List.mem_cons.mp hw with heq | hw2
    · apply mem_foldl_parentKeys_of_mem_acc
      rw [heq]
      by_cases hmem : hd.parent ∈ acc
      · rw [if_pos hmem]
        exact hmem
      · rw [if_neg hmem]
        exact List.mem_append_right _ (List.mem_singleton_self _)
    · exact ih _ hw2

lemma parent_mem_parentKeys (ms : List WordEntry) (w : WordEntry) (hw : w ∈ ms) :
    w.parent ∈ Glossary.parentKeys ms :=
  parent_mem_parentKeys_aux ms w [] hw

/-- C5, amended: in search mode the `hidden` marking is driven by the
prefix test, not by match status: every rendered node (group header or
child) is hidden exactly when its lowercased label does not start with the
term — so substring-only matches are rendered hidden too — and every
matching entry is still present in the output as a level-1 node. -/
theorem search_hidden_by_startsWith (words : List WordEntry) (term : String)
    (focus : Option String) (ns : List (Nat × RNode)) (p : Nat × RNode)
    (hterm : term ≠ "")
    (hns : Glossary.renderSearchResults words term focus = .nodes ns)
    (hp : p ∈ ns) :
    p.2.hidden = !(jsStartsWith (jsToLower p.2.label) term) ∧
    ∀ w ∈ Glossary.searchMatches words term,
      (1, Glossary.createWordElement term w.word (focus == some w.word)) ∈ ns := by
  simp only [Glossary.renderSearchResults] at hns
  split at hns
  · cases hns
  · rw [TreeView.nodes.injEq] at hns
    subst hns
    constructor
    · rw [List.mem_flatMap] at hp
      obtain ⟨key, hkey, hin⟩ := hp
      rcases List.mem_cons.mp hin with heq | hin2
      · rw [heq]
        exact createWordElement_hidden_of_ne term _ _ hterm
      · rw [List.mem_map] at hin2
        obtain ⟨c, _, heq⟩ := hin2
        rw [← heq]
        exact createWordElement_hidden_of_ne term _ _ hterm
    · intro w hw
      rw [List.mem_flatMap]
      refine ⟨w.parent, parent_mem_parentKeys _ w hw, ?_⟩
      apply List.mem_cons_of_mem
      exact List.mem_map_of_mem _ (List.mem_filter.mpr ⟨hw, by simp⟩)

/-- The rendered search view for the record set `indicator`/`catalog` and
term `cat`: one stub header for `root` (hidden), then the two matches, the
prefix match `catalog` in focus and the substring-only match `indicator`
hidden. -/
def searchDemoNodes : List (Nat × RNode) :=
  [(0, ⟨"root", false, true, some "root"⟩),
   (1, ⟨"catalog", false, false, some "catalog"⟩),
   (1, ⟨"indicator", false, true, some "indicator"⟩)]

/-- C5 witness: the amended statement applied to the `indicator`/`catalog`
record set with term `cat`, at the rendered `catalog` node. -/
theorem search_hidden_by_startsWith_witness :
    (("cat" : String) ≠ "" ∧
     Glossary.renderSearchResults [exIndicator, exCatalog] "cat" none
       = .nodes searchDemoNodes ∧
     ((1 : Nat), (⟨"catalog", false, false, some "catalog"⟩ : RNode)) ∈ searchDemoNodes) ∧
    (((1 : Nat), (⟨"catalog", false, false, some "catalog"⟩ : RNode)).2.hidden
       = !(jsStartsWith (jsToLower "catalog") "cat") ∧
     ∀ w ∈ Glossary.searchMatches [exIndicator, exCatalog] "cat",
       (1, Glossary.createWordElement "cat" w.word ((none : Option String) == some w.word))
         ∈ searchDemoNodes) :=
  ⟨⟨by decide, by decide, by decide⟩,
   search_hidden_by_startsWith [exIndicator, exCatalog] "cat" none searchDemoNodes
     ((1 : Nat), (⟨"catalog", false, false, some "catalog"⟩ : RNode))
     (by decide) (by decide) (by decide)⟩

/-! ### C8 -/

lemma generateDefinitionHTML_some_ne (e : WordEntry) :
    Script.generateDefinitionHTML (some e) ≠ "" := by
  intro h
  have h2 := congrArg String.length h
  simp only [Script.generateDefinitionHTML, String.length_append] at h2
  have h4 : ("<h2>" : String).length = 4 := rfl
  have h0 : ("" : String).length = 0 := rfl
  rw [h4, h0] at h2
  omega

/-- C8: the prefetch path is equivalent to the direct path.  For any state:
hovering a node and then clicking it displays exactly the content computed
directly from the looked-up entry (the same content the cache-free click
shows); the consumed cache is cleared by the render (a never-displayed
falsy empty-string residue remains only when the hover lookup failed);
and hovering then leaving a node discards the cache, so a later click on
any word shows the content computed directly for that word, never stale cache. -/
theorem prefetch_equals_direct (st : Script.SState) (w y : String) :
    (Script.handleClickWord (Script.handleTreeMouseover st w) w).panel
      = Script.directContent st.words w ∧
    (Script.handleClickWord (Script.handleTreeMouseout st) w).panel
      = Script.directContent st.words w ∧
    (Script.handleClickWord (Script.handleTreeMouseover st w) w).prefetched
      = (match Script.findWord st.words w with
         | some _ => none
         | none => some "") ∧
    (Script.handleTreeMouseout (Script.handleTreeMouseover st w)).prefetched = none ∧
    (Script.handleClickWord (Script.handleTreeMouseout (Script.handleTreeMouseover st w)) y).panel
      = Script.directContent st.words y := by
  refine ⟨?_, ?_, ?_, rfl, ?_⟩
  · rcases hw : Script.findWord st.words w with _ | e
    · simp [Script.handleClickWord, Script.handleTreeMouseover, hw,
        Script.renderDefinitionPanel, Script.generateDefinitionHTML,
        Script.directPanel, Script.directContent]
    · simp [Script.handleClickWord, Script.handleTreeMouseover, hw,
        Script.renderDefinitionPanel, generateDefinitionHTML_some_ne e,
        Script.directContent]
  · rcases hw : Script.findWord st.words w with _ | e <;>
      simp [Script.handleClickWord, Script.handleTreeMouseout, hw,
        Script.renderDefinitionPanel, Script.directPanel, Script.directContent]
  · rcases hw : Script.findWord st.words w with _ | e
    · simp [Script.handleClickWord, Script.handleTreeMouseover, hw,
        Script.renderDefinitionPanel, Script.generateDefinitionHTML,
        Script.directPanel]
    · simp [Script.handleClickWord, Script.handleTreeMouseover, hw,
        Script.renderDefinitionPanel, generateDefinitionHTML_some_ne e]
  · rcases hy : Script.findWord st.words y with _ | e <;>
      simp [Script.handleClickWord, Script.handleTreeMouseout,
        Script.handleTreeMouseover, hy, Script.renderDefinitionPanel,
        Script.directPanel, Script.directContent]

/-! ### C2 -/

/-- The words of the root children (level 0 of the rendered tree). -/
def gen0 (words : List WordEntry) : List String :=
  (Glossary.getChildren words "root").map (fun w => w.word)

/-- The words of children of level-0 words (level 1 of the rendered tree). -/
def gen1 (words : List WordEntry) : List String :=
  (gen0 words).flatMap (fun w => (Glossary.getChildren words w).map (fun v => v.word))

/-- The words of children of level-1 words (level 2 of the rendered tree). -/
def gen2 (words : List WordEntry) : List String :=
  (gen1 words).flatMap (fun w => (Glossary.getChildren words w).map (fun v => v.word))

lemma mem_renderSub_zero (words : List WordEntry) (searchTerm : String)
    (cw : Option String) (g : WordEntry) (p : Nat × RNode)
    (hp : p ∈ Glossary.renderSub words searchTerm cw 0 g) :
    (∃ c ∈ Glossary.getChildren words g.word,
        p = (2, Glossary.createWordElement searchTerm c.word (cw == some c.word))) ∨
    p = (2, Glossary.moreMarker ((Glossary.getChildren words g.word).length - 3)) := by
  simp only [Glossary.renderSub] at hp
  split at hp
  · rw [List.mem_append] at hp
    rcases hp with hp | hp
    · rw [List.mem_map] at hp
      obtain ⟨c, hc, heq⟩ := hp
      exact Or.inl ⟨c, List.mem_of_mem_take hc, heq.symm⟩
    · split at hp
      · rw [List.mem_singleton] at hp
        exact Or.inr hp
      · simp at hp
  · simp at hp

lemma mem_renderGrandBlock_zero (words : List WordEntry) (searchTerm : String)
    (cw : Option String) (kid : WordEntry) (p : Nat × RNode)
    (hp : p ∈ Glossary.renderGrandBlock words searchTerm cw 0 kid) :
    (∃ g ∈ Glossary.getChildren words kid.word,
        p = (1, Glossary.createWordElement searchTerm g.word (cw == some g.word))) ∨
    (∃ g ∈ Glossary.getChildren words kid.word,
        p ∈ Glossary.renderSub words searchTerm cw 0 g) := by
  simp only [Glossary.renderGrandBlock] at hp
  split at hp
  · split at hp
    · rw [List.mem_append] at hp
      rcases hp with hp | hp
      · rw [List.mem_map] at hp
        obtain ⟨g, hg, heq⟩ := hp
        exact Or.inl ⟨g, hg, heq.symm⟩
      · split at hp
        · rw [List.mem_flatMap] at hp
          obtain ⟨g, hg, hmem⟩ := hp
          exact Or.inr ⟨g, hg, hmem⟩
        · simp at hp
    · simp at hp
  · simp at hp

/-- C2: the default tree renders nodes at nesting level at most 2 (three
levels in total), and every interactive rendered node names an entry from
the first three generations below `root` — so a fourth-level descendant,
which is in none of those generations, never appears, whatever the depth or
fan-out of the record set. -/
theorem default_tree_depth_capped (words : List WordEntry) (searchTerm : String)
    (cw : Option String) (ns : List (Nat × RNode)) (p : Nat × RNode)
    (hns : Glossary.renderDefaultTree words searchTerm cw "root" 0 = .nodes ns)
    (hp : p ∈ ns) :
    p.1 ≤ 2 ∧ (p.2.onClick.isSome = true →
      p.2.label ∈ gen0 words ++ (gen1 words ++ gen2 words)) := by
  simp only [Glossary.renderDefaultTree] at hns
  split at hns
  · cases hns
  · rw [TreeView.nodes.injEq] at hns
    subst hns
    rw [List.mem_flatMap] at hp
    obtain ⟨kid, hkid, hin⟩ := hp
    rcases List.mem_cons.mp hin with heq | hin2
    · subst heq
      refine ⟨by norm_num, fun _ => ?_⟩
      exact List.mem_append_left _ (List.mem_map_of_mem _ hkid)
    · rcases mem_renderGrandBlock_zero words searchTerm cw kid p hin2 with
        ⟨g, hg, heq⟩ | ⟨g, hg, hmem⟩
      · subst heq
        refine ⟨by norm_num, fun _ => ?_⟩
        refine List.mem_append_right _ (List.mem_append_left _ ?_)
        simp only [gen1, List.mem_flatMap]
        exact ⟨kid.word, List.mem_map_of_mem _ hkid, List.mem_map_of_mem _ hg⟩
      · rcases mem_renderSub_zero words searchTerm cw g p hmem with ⟨c, hc, heq⟩ | heq
        · subst heq
          refine ⟨by norm_num, fun _ => ?_⟩
          refine List.mem_append_right _ (List.mem_append_right _ ?_)
          simp only [gen2, List.mem_flatMap]
          refine ⟨g.word, ?_, List.mem_map_of_mem _ hc⟩
          simp only [gen1, List.mem_flatMap]
          exact ⟨kid.word, List.mem_map_of_mem _ hkid, List.mem_map_of_mem _ hg⟩
        · subst heq
          exact ⟨by norm_num, fun h => by simp [Glossary.moreMarker] at h⟩

/-- The rendered default tree of `deepWords`: note that `c1`, the
fourth-level descendant, is absent, and only the first 3 of the five
children of `a1` appear, with the `+2 more…` marker. -/
def deepNodes : List (Nat × RNode) :=
  [(0, ⟨"a0", false, false, some "a0"⟩),
   (1, ⟨"a1", false, false, some "a1"⟩),
   (2, ⟨"b1", false, false, some "b1"⟩),
   (2, ⟨"b2", false, false, some "b2"⟩),
   (2, ⟨"b3", false, false, some "b3"⟩),
   (2, ⟨"+2 more…", false, false, none⟩)]

/-- C2 witness: the depth-cap statement applied to the four-level record
set `deepWords`, at the rendered `b1` node. -/
theorem default_tree_depth_capped_witness :
    (Glossary.renderDefaultTree deepWords "" none "root" 0 = .nodes deepNodes ∧
     ((2 : Nat), (⟨"b1", false, false, some "b1"⟩ : RNode)) ∈ deepNodes) ∧
    (((2 : Nat), (⟨"b1", false, false, some "b1"⟩ : RNode)).1 ≤ 2 ∧
     (((2 : Nat), (⟨"b1", false, false, some "b1"⟩ : RNode)).2.onClick.isSome = true →
       ((2 : Nat), (⟨"b1", false, false, some "b1"⟩ : RNode)).2.label
         ∈ gen0 deepWords ++ (gen1 deepWords ++ gen2 deepWords))) :=
  ⟨⟨by decide, by decide⟩,
   default_tree_depth_capped deepWords "" none deepNodes
     ((2 : Nat), (⟨"b1", false, false, some "b1"⟩ : RNode)) (by decide) (by decide)⟩

/-! ### C3 -/

lemma flatMap_decomp {α β : Type} (l : List α) (f : α → List β) (a : α)
    (ha : a ∈ l) : ∃ pre post, l.flatMap f = pre ++ (f a ++ post) := by
  obtain ⟨s, t, rfl⟩ := List.append_of_mem ha
  exact ⟨s.flatMap f, t.flatMap f, by rw [List.flatMap_append, List.flatMap_cons]⟩

/-- C3: when a level-1 node `g` (a child of a root child `c`) has more than
3 children, its sub div renders exactly the first 3 children in source
order followed by exactly one `+N more…` marker with `N` the omitted count;
the marker has no click listener, so clicking it changes no state; and this
sub div occurs inside the rendered default tree. -/
theorem level2_truncation (words : List WordEntry) (searchTerm : String)
    (cw : Option String) (c g : WordEntry)
    (hc : c ∈ Glossary.getChildren words "root")
    (hg : g ∈ Glossary.getChildren words c.word)
    (hlen : 3 < (Glossary.getChildren words g.word).length) :
    Glossary.renderSub words searchTerm cw 0 g =
      ((Glossary.getChildren words g.word).take 3).map
        (fun x => (2, Glossary.createWordElement searchTerm x.word (cw == some x.word)))
      ++ [(2, Glossary.moreMarker ((Glossary.getChildren words g.word).length - 3))] ∧
    (Glossary.moreMarker ((Glossary.getChildren words g.word).length - 3)).label
      = "+" ++ toString ((Glossary.getChildren words g.word).length - 3) ++ " more…" ∧
    (∀ st : Glossary.AppState,
      Glossary.clickNode st
        (Glossary.moreMarker ((Glossary.getChildren words g.word).length - 3)) = st) ∧
    ∃ ns pre post,
      Glossary.renderDefaultTree words searchTerm cw "root" 0 = .nodes ns ∧
      ns = pre ++ (Glossary.renderSub words searchTerm cw 0 g ++ post) := by
  have hne : (Glossary.getChildren words g.word).length ≠ 0 := by omega
  refine ⟨?_, rfl, fun st => rfl, ?_⟩
  · simp only [Glossary.renderSub]
    rw [if_pos hne, if_pos hlen]
  · have hkidsne : ¬((Glossary.getChildren words "root").length = 0 ∧ (0 : Nat) = 0) := by
      rintro ⟨h1, -⟩
      rw [List.length_eq_zero] at h1
      rw [h1] at hc
      cases hc
    have hgrandne : (Glossary.getChildren words c.word).length ≠ 0 := by
      intro h0
      rw [List.length_eq_zero] at h0
      rw [h0] at hg
      cases hg
    have hgb : Glossary.renderGrandBlock words searchTerm cw 0 c
        = (Glossary.getChildren words c.word).map
            (fun g2 => (1, Glossary.createWordElement searchTerm g2.word (cw == some g2.word)))
          ++ (Glossary.getChildren words c.word).flatMap
              (Glossary.renderSub words searchTerm cw 0) := by
      simp only [Glossary.renderGrandBlock]
      rw [if_pos (by norm_num : (0 : Nat) < 2), if_pos hgrandne,
        if_pos (by norm_num : (0 : Nat) < 1)]
    obtain ⟨s, t, hst⟩ := flatMap_decomp (Glossary.getChildren words "root")
      (fun kid => (0, Glossary.createWordElement searchTerm kid.word (cw == some kid.word)) ::
        Glossary.renderGrandBlock words searchTerm cw 0 kid) c hc
    obtain ⟨s2, t2, h2⟩ := flatMap_decomp (Glossary.getChildren words c.word)
      (Glossary.renderSub words searchTerm cw 0) g hg
    refine ⟨(Glossary.getChildren words "root").flatMap
        (fun kid => (0, Glossary.createWordElement searchTerm kid.word (cw == some kid.word)) ::
          Glossary.renderGrandBlock words searchTerm cw 0 kid),
      s ++ ((0, Glossary.createWordElement searchTerm c.word (cw == some c.word)) ::
        ((Glossary.getChildren words c.word).map
          (fun g2 => (1, Glossary.createWordElement searchTerm g2.word (cw == some g2.word)))
          ++ s2)),
      t2 ++ t, ?_, ?_⟩
    · have hlen0 : (Glossary.getChildren words "root").length ≠ 0 :=
        fun h => hkidsne ⟨h, rfl⟩
      simp [Glossary.renderDefaultTree, hlen0]
    · rw [hst, hgb, h2]
      simp [List.append_assoc]

/-- C3 witness: the truncation statement applied to `deepWords`, whose
level-1 node `a1` has five children. -/
theorem level2_truncation_witness :
    (exA0 ∈ Glossary.getChildren deepWords "root" ∧
     exA1 ∈ Glossary.getChildren deepWords exA0.word ∧
     3 < (Glossary.getChildren deepWords exA1.word).length) ∧
    Glossary.renderSub deepWords "" none 0 exA1 =
      ((Glossary.getChildren deepWords exA1.word).take 3).map
        (fun x => (2, Glossary.createWordElement "" x.word ((none : Option String) == some x.word)))
      ++ [(2, Glossary.moreMarker ((Glossary.getChildren deepWords exA1.word).length - 3))] :=
  ⟨⟨by decide, by decide, by decide⟩,
   (level2_truncation deepWords "" none exA0 exA1 (by decide) (by decide) (by decide)).1⟩

/-! ### C7 -/

/-- C7, counterexample: the claim says parent navigation is a no-op when
the parent does not resolve, but with `Anchor` (whose parent `Ghost` is
dangling) selected, clicking the rendered parent link changes
`currentWord` to `Ghost`. -/
theorem selectParent_dangling_changes_selection :
    Glossary.findWord [exAnchor] "Ghost" = none ∧
    (Glossary.selectParent (Glossary.selectWord (exState [exAnchor]) "Anchor")).currentWord
      ≠ (Glossary.selectWord (exState [exAnchor]) "Anchor").currentWord :=
  ⟨by decide, by decide⟩

/-- C7, amended: after selecting an entry `e`, parent navigation lands on
the resolved parent entry when `e.parent` resolves and is not the root
sentinel; when `e.parent` is the root sentinel (or absent) no parent link is
rendered, so navigation is a true no-op; but when `e.parent` is dangling,
clicking the link leaves the panel and tree unchanged while still
overwriting `currentWord` with the dangling parent string. -/
theorem selectParent_navigation (st : Glossary.AppState) (e : WordEntry)
    (he : Glossary.findWord st.words e.word = some e) :
    (∀ p, e.parent ≠ "root" → e.parent ≠ "" →
      Glossary.findWord st.words e.parent = some p →
      (Glossary.selectParent (Glossary.selectWord st e.word)).currentWord
        = some e.parent ∧
      (Glossary.selectParent (Glossary.selectWord st e.word)).panel
        = .defView (Glossary.renderDefinition p)) ∧
    ((e.parent = "root" ∨ e.parent = "") →
      Glossary.selectParent (Glossary.selectWord st e.word)
        = Glossary.selectWord st e.word) ∧
    (e.parent ≠ "root" → e.parent ≠ "" →
      Glossary.findWord st.words e.parent = none →
      (Glossary.selectParent (Glossary.selectWord st e.word)).panel
        = (Glossary.selectWord st e.word).panel ∧
      (Glossary.selectParent (Glossary.selectWord st e.word)).tree
        = (Glossary.selectWord st e.word).tree ∧
      (Glossary.selectParent (Glossary.selectWord st e.word)).currentWord
        = some e.parent) := by
  have h1 : Glossary.selectWord st e.word =
      { st with
        currentWord := some e.word
        panel := .defView (Glossary.renderDefinition e)
        tree := Glossary.renderTree st.words st.searchTerm (some e.word) (some e.word) } := by
    simp [Glossary.selectWord, he]
  refine ⟨?_, ?_, ?_⟩
  · intro p hr h0 hp
    rw [h1]
    simp [Glossary.selectParent, Glossary.renderDefinition, hr, h0,
      Glossary.selectWord, hp]
  · intro hor
    rw [h1]
    rcases hor with hr | h0
    · simp [Glossary.selectParent, Glossary.renderDefinition, hr]
    · simp [Glossary.selectParent, Glossary.renderDefinition, h0]
  · intro hr h0 hp
    rw [h1]
    simp [Glossary.selectParent, Glossary.renderDefinition, hr, h0,
      Glossary.selectWord, hp]

/-- C7 witness: the navigation statement applied to the `Bolt`/`Hex Bolt`
record set: selecting `Hex Bolt` and navigating to its parent lands on the
`Bolt` entry. -/
theorem selectParent_navigation_witness :
    (Glossary.findWord (exState [exBolt, exHexBolt]).words exHexBolt.word
       = some exHexBolt ∧
     exHexBolt.parent ≠ "root" ∧ exHexBolt.parent ≠ "" ∧
     Glossary.findWord (exState [exBolt, exHexBolt]).words exHexBolt.parent
       = some exBolt) ∧
    ((Glossary.selectParent
        (Glossary.selectWord (exState [exBolt, exHexBolt]) exHexBolt.word)).currentWord
      = some exHexBolt.parent ∧
     (Glossary.selectParent
        (Glossary.selectWord (exState [exBolt, exHexBolt]) exHexBolt.word)).panel
      = .defView (Glossary.renderDefinition exBolt)) :=
  ⟨⟨by decide, by decide, by decide, by decide⟩,
   (selectParent_navigation (exState [exBolt, exHexBolt]) exHexBolt (by decide)).1
     exBolt (by decide) (by decide) (by decide)⟩
